import Mathlib

/-!
Verification of the Inventra frontend's sales/cart subsystem.

This file shallowly embeds the cart model, checkout flow, product picker
and API-client error handling of the repository (chiefly
`src/app/sales/page.tsx` and `src/lib/api.ts`) as executable Lean
definitions, and proves the spec's claims about them.

JavaScript numbers are modelled as rationals (`ℚ`): every finite JS
number is a rational, and the arithmetic the page performs on prices and
quantities (`+`, `*`, `Math.floor`, `Math.max`) is exact on the values
that arise.  `NaN` arguments are modelled by `Option ℚ` (`none` = NaN)
at the one place the code tests for NaN (`setQty`).
-/

namespace Inventra

/-- A catalog product as loaded by the sales page (`type Product`). -/
structure Product where
  id : String
  name : String
  sku : String
  barcode : Option String
  unit : String
  sellingPrice : ℚ
  isActive : Bool
  deriving Repr, DecidableEq

/-- One line of the in-progress cart (`type CartLine`); `price` is the
selling price snapshotted when the line was created. -/
structure CartLine where
  productId : String
  name : String
  sku : String
  unit : String
  price : ℚ
  qty : ℚ
  deriving Repr, DecidableEq

/-- The slice of the backend invoice the checkout flow uses
(`type Invoice`; display-only fields are omitted). -/
structure Invoice where
  invoiceNo : String
  createdAt : String
  total : ℚ
  deriving Repr, DecidableEq

/-- `addToCart` from `src/app/sales/page.tsx` (lines 138-162): the first
line whose `productId` matches gets its quantity incremented (the JS
`findIndex` / copy-update); if none matches, a new line with quantity 1
and the product's current selling price is appended at the end. -/
def addToCart (p : Product) : List CartLine → List CartLine
  | [] =>
    [{ productId := p.id, name := p.name, sku := p.sku, unit := p.unit,
       price := p.sellingPrice, qty := 1 }]
  | l :: rest =>
    if l.productId = p.id then { l with qty := l.qty + 1 } :: rest
    else l :: addToCart p rest

/-- `setQty` from `src/app/sales/page.tsx` (lines 164-172).  The `qty`
argument is the JS number passed in; `none` models `NaN` (the code
returns immediately on `Number.isNaN(qty)`).  Otherwise the matching
line's quantity becomes `Math.max(0, Math.floor(qty))` and all lines
with non-positive quantity are filtered out. -/
def setQty (productId : String) (qty : Option ℚ) (prev : List CartLine) : List CartLine :=
  match qty with
  | none => prev
  | some q =>
    (prev.map (fun l =>
        if l.productId = productId then { l with qty := ((max 0 ⌊q⌋ : ℤ) : ℚ) } else l)).filter
      (fun l => decide (0 < l.qty))

/-- `removeLine` from `src/app/sales/page.tsx` (lines 174-176). -/
def removeLine (productId : String) (prev : List CartLine) : List CartLine :=
  prev.filter (fun l => l.productId != productId)

/-- The `total` memo from `src/app/sales/page.tsx` (line 94):
`cart.reduce((sum, l) => sum + l.price * l.qty, 0)`. -/
def total (cart : List CartLine) : ℚ :=
  cart.foldl (fun sum l => sum + l.price * l.qty) 0

/-- JS `String.prototype.toLowerCase`, character by character. -/
def jsToLower (s : String) : String :=
  ⟨s.data.map Char.toLower⟩

/-- JS `String.prototype.trim`: strip leading and trailing whitespace. -/
def jsTrim (s : String) : String :=
  ⟨(((s.data.dropWhile Char.isWhitespace).reverse).dropWhile Char.isWhitespace).reverse⟩

/-- Does `pat` occur at the head of `s`? -/
def leadsWith : List Char → List Char → Bool
  | [], _ => true
  | _ :: _, [] => false
  | a :: pa, b :: s => a == b && leadsWith pa s

/-- Does `pat` occur somewhere in `s`? -/
def subOccurs (pat : List Char) : List Char → Bool
  | [] => pat.isEmpty
  | c :: rest => leadsWith pat (c :: rest) || subOccurs pat rest

/-- JS `String.prototype.includes`: `pat` occurs as a contiguous
substring of `s` (the empty pattern occurs in every string, as in JS). -/
def strIncludes (s pat : String) : Bool :=
  subOccurs pat.data s.data

/-- The `filteredProducts` memo from `src/app/sales/page.tsx`
(lines 77-92): keep active products; with an empty (trimmed, lowered)
query take the first 50, otherwise keep those whose lowered name, SKU or
(truthy, i.e. present and non-empty) barcode contains the query, and
take the first 50. -/
def filteredProducts (products : List Product) (search : String) : List Product :=
  let q := jsToLower (jsTrim search)
  let list := products.filter (fun p => p.isActive)
  if q = "" then list.take 50
  else
    (list.filter (fun p =>
        strIncludes (jsToLower p.name) q || strIncludes (jsToLower p.sku) q ||
          (match p.barcode with
           | some b => if b = "" then false else strIncludes (jsToLower b) q
           | none => false))).take 50

/-- One item of the checkout payload (`items` in the `checkout`
function's payload object). -/
structure CheckoutItem where
  productId : String
  qty : ℚ
  unitPrice : ℚ
  deriving Repr, DecidableEq

/-- The body POSTed to `/sales/checkout`. -/
structure CheckoutPayload where
  branchId : String
  note : Option String
  items : List CheckoutItem
  deriving Repr, DecidableEq

/-- A network request issued by the page, as observed at the API client
boundary. -/
structure Request where
  path : String
  method : String
  body : CheckoutPayload
  deriving Repr, DecidableEq

/-- The React state of the sales page that the checkout flow reads and
writes (the relevant `useState` cells of `SalesPage`). -/
structure SalesState where
  branchId : String
  products : List Product
  cart : List CartLine
  note : String
  lastInvoice : Option Invoice
  error : Option String
  ok : Option String
  deriving Repr, DecidableEq

/-- The payload built inside `checkout` (lines 193-201): branch id, the
trimmed note when non-empty (JS truthiness), and one item per cart line
carrying the line's snapshotted price as `unitPrice`. -/
def checkoutPayload (s : SalesState) : CheckoutPayload :=
  { branchId := s.branchId
    note := if jsTrim s.note = "" then none else some (jsTrim s.note)
    items := s.cart.map (fun l =>
      { productId := l.productId, qty := l.qty, unitPrice := l.price }) }

/-- `checkout` from `src/app/sales/page.tsx` (lines 178-217).  The
backend is an oracle `resp` mapping the submitted payload to either an
invoice or a thrown error message.  The result is the list of network
requests issued together with the new page state: validation failures
issue no request and only set `error`; a successful call clears the cart
and note and retains the invoice; a failed call sets `error` to the
thrown message (`e.message || "Checkout failed"`). -/
def checkout (s : SalesState) (resp : CheckoutPayload → Except String Invoice) :
    List Request × SalesState :=
  if s.branchId = "" then
    ([], { s with error := some "Please select a branch" })
  else if s.cart.length = 0 then
    ([], { s with error := some "Cart is empty" })
  else
    let payload := checkoutPayload s
    match resp payload with
    | .ok inv =>
      ([{ path := "/sales/checkout", method := "POST", body := payload }],
       { s with error := none, ok := some ("Saved ✅ Invoice: " ++ inv.invoiceNo),
                lastInvoice := some inv, cart := [], note := "" })
    | .error msg =>
      ([{ path := "/sales/checkout", method := "POST", body := payload }],
       { s with error := some (if msg = "" then "Checkout failed" else msg), ok := none })

/-- The parsed body of a non-success response, as far as the API client
looks at it: an optional `message` field. -/
structure ErrorBody where
  message : Option String
  deriving Repr, DecidableEq

/-- An HTTP response as the API client (`src/lib/api.ts`) observes it:
the `ok` flag, the status code, the parse result of the body as an error
body (`none` = `res.json()` threw, caught as `{}`), and the raw success
body. -/
structure HttpResponse where
  ok : Bool
  status : Nat
  errorBody : Option ErrorBody
  body : String
  deriving Repr, DecidableEq

/-- The response handling of `api` in `src/lib/api.ts`: on `!res.ok`
throw `new Error(data.message || 'API error: ' + res.status)` where
`data` is the parsed error body or `{}`; on success return the body.
JS `||` falls back when `data.message` is absent or the empty string. -/
def api (res : HttpResponse) : Except String String :=
  if res.ok then .ok res.body
  else
    let data := res.errorBody.getD { message := none }
    .error
      (match data.message with
       | some m => if m = "" then "API error: " ++ toString res.status else m
       | none => "API error: " ++ toString res.status)

/-- The cart invariant of spec §3: at most one line per product id, and
every quantity a strictly positive integer. -/
def CartInv (cart : List CartLine) : Prop :=
  (cart.map (fun l => l.productId)).Nodup ∧
    ∀ l ∈ cart, ∃ n : ℤ, 0 < n ∧ l.qty = (n : ℚ)

/-- The cart line `addToCart` appends for a product not yet in the cart. -/
def freshLine (p : Product) : CartLine :=
  { productId := p.id, name := p.name, sku := p.sku, unit := p.unit,
    price := p.sellingPrice, qty := 1 }

/-- Increment the quantity of the line for `pid`, leave other lines
alone (the per-line effect of `addToCart` on an already-present id). -/
def bumpQty (pid : String) (l : CartLine) : CartLine :=
  if l.productId = pid then { l with qty := l.qty + 1 } else l

/-- A concrete catalog product, selling price 100. -/
def prodW : Product :=
  { id := "P1", name := "Widget", sku := "W-1", barcode := none, unit := "pc",
    sellingPrice := 100, isActive := true }

/-- `prodW` after a later catalog price change to 120. -/
def prodW120 : Product := { prodW with sellingPrice := 120 }

/-- A concrete cart line for `prodW` (quantity 2, snapshotted price 100). -/
def lineW : CartLine :=
  { productId := "P1", name := "Widget", sku := "W-1", unit := "pc", price := 100, qty := 2 }

/-- A concrete invoice, as returned by the backend. -/
def invINV1 : Invoice := { invoiceNo := "INV-1", createdAt := "2026-10-11", total := 200 }

/-- A concrete sales-page state: branch selected, one cart line. -/
def state0 : SalesState :=
  { branchId := "b1", products := [prodW], cart := [lineW], note := "", lastInvoice := none,
    error := none, ok := none }

/-- `state0` with no branch selected. -/
def stateNoBranch : SalesState := { state0 with branchId := "" }

/-- `state0` with an empty cart. -/
def stateEmptyCart : SalesState := { state0 with cart := [] }

/-- A backend oracle that accepts the checkout and returns `invINV1`. -/
def respOk : CheckoutPayload → Except String Invoice := fun _ => .ok invINV1

/-- A backend oracle that rejects the checkout. -/
def respFail : CheckoutPayload → Except String Invoice := fun _ => .error "Insufficient stock"

/-- A concrete non-success response whose error body carries an empty
`message` field. -/
def respEmptyMsg : HttpResponse :=
  { ok := false, status := 500, errorBody := some { message := some "" }, body := "" }

/-- A concrete non-success response with a backend message. -/
def respBoom : HttpResponse :=
  { ok := false, status := 400, errorBody := some { message := some "boom" }, body := "" }

/-- A concrete non-success response whose body failed to parse. -/
def respNoBody : HttpResponse :=
  { ok := false, status := 404, errorBody := none, body := "" }

lemma bumpQty_productId (pid : String) (l : CartLine) :
    (bumpQty pid l).productId = l.productId := by
  unfold bumpQty; split <;> rfl

lemma addToCart_of_not_mem (p : Product) (cart : List CartLine)
    (h : ∀ l ∈ cart, l.productId ≠ p.id) :
    addToCart p cart = cart ++ [freshLine p] := by
  induction cart with
  | nil => rfl
  | cons l rest ih =>
    have hl : l.productId ≠ p.id := h l (List.mem_cons_self l rest)
    have hrest : ∀ l' ∈ rest, l'.productId ≠ p.id :=
      fun l' hl' => h l' (List.mem_cons_of_mem _ hl')
    simp [addToCart, hl, ih hrest]

lemma map_bumpQty_of_not_mem (pid : String) (cart : List CartLine)
    (h : ∀ l ∈ cart, l.productId ≠ pid) :
    cart.map (bumpQty pid) = cart := by
  induction cart with
  | nil => rfl
  | cons l rest ih =>
    have hl : l.productId ≠ pid := h l (List.mem_cons_self l rest)
    have hrest : ∀ l' ∈ rest, l'.productId ≠ pid :=
      fun l' hl' => h l' (List.mem_cons_of_mem _ hl')
    simp [bumpQty, hl, ih hrest]

lemma addToCart_of_mem (p : Product) (cart : List CartLine)
    (hnd : (cart.map (fun l => l.productId)).Nodup)
    (hmem : ∃ l ∈ cart, l.productId = p.id) :
    addToCart p cart = cart.map (bumpQty p.id) := by
  induction cart with
  | nil => simp at hmem
  | cons l rest ih =>
    rw [List.map_cons, List.nodup_cons] at hnd
    by_cases hl : l.productId = p.id
    · have hrest : ∀ l' ∈ rest, l'.productId ≠ p.id := by
        intro l' hl' he
        exact hnd.1 (hl ▸ he ▸ List.mem_map_of_mem (fun x => x.productId) hl')
      simp [addToCart, hl, bumpQty, map_bumpQty_of_not_mem p.id rest hrest]
    · have hmem' : ∃ l' ∈ rest, l'.productId = p.id := by
        rcases hmem with ⟨l', hl', he⟩
        rcases List.mem_cons.mp hl' with rfl | hl'
        · exact absurd he hl
        · exact ⟨l', hl', he⟩
      simp [addToCart, hl, bumpQty, ih hnd.2 hmem']

lemma addToCart_ne_nil (p : Product) (cart : List CartLine) : addToCart p cart ≠ [] := by
  cases cart with
  | nil => simp [addToCart]
  | cons l rest => simp only [addToCart]; split <;> simp

lemma cartInv_nil : CartInv ([] : List CartLine) := ⟨List.nodup_nil, by simp⟩

lemma cartInv_pos (cart : List CartLine) (h : CartInv cart) :
    ∀ l ∈ cart, 0 < l.qty := by
  intro l hl
  rcases h.2 l hl with ⟨n, hn, hq⟩
  rw [hq]
  exact_mod_cast hn

lemma cartInv_addToCart (p : Product) (cart : List CartLine) (h : CartInv cart) :
    CartInv (addToCart p cart) := by
  by_cases hmem : ∃ l ∈ cart, l.productId = p.id
  · rw [addToCart_of_mem p cart h.1 hmem]
    constructor
    · have hids : (cart.map (bumpQty p.id)).map (fun l => l.productId)
          = cart.map (fun l => l.productId) := by
        rw [List.map_map]
        exact List.map_congr_left (fun l _ => bumpQty_productId p.id l)
      rw [hids]; exact h.1
    · intro l' hl'
      rcases List.mem_map.mp hl' with ⟨l, hl, rfl⟩
      rcases h.2 l hl with ⟨n, hn, hq⟩
      unfold bumpQty
      split
      · exact ⟨n + 1, by omega, by push_cast [hq]; ring⟩
      · exact ⟨n, hn, hq⟩
  · push_neg at hmem
    rw [addToCart_of_not_mem p cart hmem]
    constructor
    · rw [List.map_append]
      refine List.Nodup.append h.1 (by simp) ?_
      intro a ha hb
      simp only [List.map_cons, List.map_nil, List.mem_singleton] at hb
      rcases List.mem_map.mp ha with ⟨l, hl, rfl⟩
      exact hmem l hl hb
    · intro l' hl'
      rcases List.mem_append.mp hl' with hl' | hl'
      · exact h.2 l' hl'
      · rw [List.mem_singleton.mp hl']
        exact ⟨1, one_pos, rfl⟩

lemma setQty_remove (K : String) (q : ℚ) (cart : List CartLine) (hq : ⌊q⌋ ≤ 0)
    (hpos : ∀ l ∈ cart, 0 < l.qty) :
    setQty K (some q) cart = removeLine K cart := by
  have hmax : max 0 ⌊q⌋ = 0 := max_eq_left hq
  revert hpos
  induction cart with
  | nil => intro _; rfl
  | cons l rest ih =>
    intro hpos
    have hrest : ∀ l' ∈ rest, 0 < l'.qty :=
      fun l' hl' => hpos l' (List.mem_cons_of_mem _ hl')
    have htail : setQty K (some q) rest = removeLine K rest := ih hrest
    simp only [setQty, removeLine, hmax, Int.cast_zero] at htail ⊢
    by_cases hl : l.productId = K
    · simp [List.filter_cons, hl, htail]
    · have h0 : 0 < l.qty := hpos l (List.mem_cons_self l rest)
      simp [List.filter_cons, hl, h0, htail]

lemma setQty_pos_int (K : String) (n : ℤ) (hn : 0 < n) (cart : List CartLine)
    (hpos : ∀ l ∈ cart, 0 < l.qty) :
    setQty K (some (n : ℚ)) cart
      = cart.map (fun l => if l.productId = K then { l with qty := (n : ℚ) } else l) := by
  have hmax : max (0 : ℤ) n = n := max_eq_right hn.le
  revert hpos
  induction cart with
  | nil => intro _; rfl
  | cons l rest ih =>
    intro hpos
    have hrest : ∀ l' ∈ rest, 0 < l'.qty :=
      fun l' hl' => hpos l' (List.mem_cons_of_mem _ hl')
    have htail := ih hrest
    simp only [setQty, Int.floor_intCast, hmax] at htail ⊢
    by_cases hl : l.productId = K
    · have hcast : (0 : ℚ) < (n : ℚ) := by exact_mod_cast hn
      simp [List.filter_cons, hl, hcast, htail]
    · have h0 : 0 < l.qty := hpos l (List.mem_cons_self l rest)
      simp [List.filter_cons, hl, h0, htail]

lemma cartInv_setQty (K : String) (q : Option ℚ) (cart : List CartLine) (h : CartInv cart) :
    CartInv (setQty K q cart) := by
  match q with
  | none => exact h
  | some q' =>
    constructor
    · have hsub : List.Sublist (setQty K (some q') cart)
          (cart.map (fun l =>
            if l.productId = K then { l with qty := ((max 0 ⌊q'⌋ : ℤ) : ℚ) } else l)) :=
        List.filter_sublist _
      have hmapsub := hsub.map (fun l => l.productId)
      have hids : (cart.map (fun l =>
            if l.productId = K then { l with qty := ((max 0 ⌊q'⌋ : ℤ) : ℚ) } else l)).map
            (fun l => l.productId) = cart.map (fun l => l.productId) := by
        rw [List.map_map]
        refine List.map_congr_left (fun l _ => ?_)
        by_cases hl : l.productId = K <;> simp [hl]
      rw [hids] at hmapsub
      exact h.1.sublist hmapsub
    · intro l' hl'
      simp only [setQty, List.mem_filter, List.mem_map, decide_eq_true_eq] at hl'
      rcases hl' with ⟨⟨l, hl, rfl⟩, hq'⟩
      by_cases hK : l.productId = K
      · refine ⟨max 0 ⌊q'⌋, ?_, by simp [hK]⟩
        simp [hK] at hq'
        have : (0 : ℤ) < ⌊q'⌋ := by exact_mod_cast hq'
        exact lt_max_of_lt_right this
      · rcases h.2 l hl with ⟨n, hn, hq⟩
        exact ⟨n, hn, by simp [hK, hq]⟩

lemma cartInv_removeLine (K : String) (cart : List CartLine) (h : CartInv cart) :
    CartInv (removeLine K cart) := by
  constructor
  · have hsub : List.Sublist (removeLine K cart) cart := List.filter_sublist _
    exact h.1.sublist (hsub.map (fun l => l.productId))
  · intro l' hl'
    exact h.2 l' (List.mem_of_mem_filter hl')

lemma foldl_add_line_total (cart : List CartLine) :
    ∀ a : ℚ, cart.foldl (fun sum l => sum + l.price * l.qty) a
      = a + (cart.map (fun l => l.price * l.qty)).sum := by
  induction cart with
  | nil => intro a; simp
  | cons l rest ih => intro a; simp [ih, add_assoc]

lemma filteredProducts_empty_query (products : List Product) (search : String)
    (hq : jsToLower (jsTrim search) = "") :
    filteredProducts products search = (products.filter (fun p => p.isActive)).take 50 := by
  simp [filteredProducts, hq]

lemma filteredProducts_query (products : List Product) (search : String)
    (hq : ¬jsToLower (jsTrim search) = "") :
    filteredProducts products search
      = ((products.filter (fun p => p.isActive)).filter (fun p =>
          strIncludes (jsToLower p.name) (jsToLower (jsTrim search))
          || strIncludes (jsToLower p.sku) (jsToLower (jsTrim search))
          || (match p.barcode with
              | some b =>
                if b = "" then false
                else strIncludes (jsToLower b) (jsToLower (jsTrim search))
              | none => false))).take 50 := by
  simp [filteredProducts, hq]

/-- C3: under the one-line-per-product-id invariant, adding a product
whose id is absent appends a fresh quantity-1 line snapshotting the
current selling price; adding a product whose id is present increments
exactly that line's quantity by 1; adding the same product twice to an
empty cart yields one line with quantity 2, not two lines. -/
theorem addToCart_merge_or_append (p : Product) (cart : List CartLine) (hinv : CartInv cart) :
    ((∀ l ∈ cart, l.productId ≠ p.id) → addToCart p cart = cart ++ [freshLine p])
    ∧ ((∃ l ∈ cart, l.productId = p.id) → addToCart p cart = cart.map (bumpQty p.id))
    ∧ addToCart p (addToCart p []) = [{ freshLine p with qty := 2 }] := by
  refine ⟨fun h => addToCart_of_not_mem p cart h,
    fun h => addToCart_of_mem p cart hinv.1 h, ?_⟩
  norm_num [addToCart, freshLine]

/-- C3 witness at a concrete product: one add appends a quantity-1
line, a second add of the same product merges into quantity 2. -/
theorem addToCart_merge_or_append_witness :
    addToCart prodW [] = [freshLine prodW]
      ∧ addToCart prodW (addToCart prodW []) = [{ freshLine prodW with qty := 2 }] := by
  have h := addToCart_merge_or_append prodW [] ⟨by simp, by simp⟩
  exact ⟨by simpa using h.1 (by simp), h.2.2⟩

/-- C8: the cart invariant — at most one line per product id, every
quantity a strictly positive integer — holds for the empty cart and is
preserved by `addToCart`, `setQty` and `removeLine`. -/
theorem cart_invariant_preserved (p : Product) (K : String) (q : Option ℚ)
    (cart : List CartLine) (h : CartInv cart) :
    CartInv [] ∧ CartInv (addToCart p cart) ∧ CartInv (setQty K q cart)
      ∧ CartInv (removeLine K cart) :=
  ⟨cartInv_nil, cartInv_addToCart p cart h, cartInv_setQty K q cart h,
    cartInv_removeLine K cart h⟩

/-- C8 witness at a concrete cart. -/
theorem cart_invariant_preserved_witness :
    CartInv (addToCart prodW [lineW]) ∧ CartInv (setQty "P1" (some 5) [lineW])
      ∧ CartInv (removeLine "P1" [lineW]) := by
  have hinv : CartInv [lineW] := by
    refine ⟨by simp, ?_⟩
    intro l hl
    rw [List.mem_singleton.mp hl]
    exact ⟨2, by norm_num, rfl⟩
  have h := cart_invariant_preserved prodW "P1" (some 5) [lineW] hinv
  exact ⟨h.2.1, h.2.2.1, h.2.2.2⟩

/-- C4 counterexample: setting the quantity of the only cart line to −1
does not leave the cart unchanged — the line is removed (the code clamps
`Math.max(0, Math.floor(-1))` to 0 and filters the line out). -/
theorem setQty_negative_removes_line :
    setQty "P1" (some (-1)) [lineW] = [] ∧ ([] : List CartLine) ≠ [lineW] :=
  ⟨rfl, by simp⟩

/-- C4 (amended): on carts satisfying the invariant, `setQty` with a NaN
quantity leaves the cart unchanged; with 0 it removes the line for `K`;
with a negative quantity it clamps to 0 and therefore also removes the
line for `K` (not leaving the cart unchanged); with a positive integer
`n` it replaces the matching line's quantity by `n`. -/
theorem setQty_zero_negative_nan (K : String) (cart : List CartLine) (hinv : CartInv cart) :
    setQty K none cart = cart
    ∧ setQty K (some 0) cart = removeLine K cart
    ∧ (∀ q : ℚ, q < 0 → setQty K (some q) cart = removeLine K cart)
    ∧ (∀ n : ℤ, 0 < n → setQty K (some (n : ℚ)) cart
        = cart.map (fun l => if l.productId = K then { l with qty := (n : ℚ) } else l)) := by
  have hpos := cartInv_pos cart hinv
  refine ⟨rfl, ?_, ?_, ?_⟩
  · exact setQty_remove K 0 cart (by simp) hpos
  · intro q hq
    exact setQty_remove K q cart (Int.floor_nonpos hq.le) hpos
  · intro n hn
    exact setQty_pos_int K n hn cart hpos

/-- C4 witness at a concrete cart: NaN is ignored and −1 removes the
line, exactly like an explicit removal. -/
theorem setQty_zero_negative_nan_witness :
    setQty "P1" none [lineW] = [lineW]
      ∧ setQty "P1" (some (-1)) [lineW] = removeLine "P1" [lineW] := by
  have hinv : CartInv [lineW] := by
    refine ⟨by simp, ?_⟩
    intro l hl
    rw [List.mem_singleton.mp hl]
    exact ⟨2, by norm_num, rfl⟩
  have h := setQty_zero_negative_nan "P1" [lineW] hinv
  exact ⟨h.1, h.2.2.1 (-1) (by norm_num)⟩

/-- C9: the displayed cart total is the sum of `unitPrice * quantity`
over the current lines — a pure function of the lines, hence recomputed
after every mutation; the empty cart totals 0. -/
theorem total_is_sum_of_lines :
    total ([] : List CartLine) = 0
    ∧ (∀ cart : List CartLine, total cart = (cart.map (fun l => l.price * l.qty)).sum)
    ∧ (∀ (p : Product) (cart : List CartLine), total (addToCart p cart)
        = ((addToCart p cart).map (fun l => l.price * l.qty)).sum)
    ∧ (∀ (K : String) (q : Option ℚ) (cart : List CartLine), total (setQty K q cart)
        = ((setQty K q cart).map (fun l => l.price * l.qty)).sum)
    ∧ (∀ (K : String) (cart : List CartLine), total (removeLine K cart)
        = ((removeLine K cart).map (fun l => l.price * l.qty)).sum) := by
  have hsum : ∀ cart : List CartLine,
      total cart = (cart.map (fun l => l.price * l.qty)).sum := by
    intro cart
    simpa [total] using foldl_add_line_total cart 0
  exact ⟨by simpa using hsum [], hsum, fun p cart => hsum _, fun K q cart => hsum _,
    fun K cart => hsum _⟩

/-- C1: the checkout payload is built from the cart lines' snapshotted
prices: its items are exactly the cart lines' `(productId, qty, price)`
triples, independent of the current catalog (`products` state); a line
just added for a product absent from the cart carries that product's
selling price at add time, and the single issued request carries this
payload — so a later catalog price change never reaches the payload. -/
theorem checkout_submits_snapshot_prices (s : SalesState) (newCatalog : List Product)
    (p : Product) (h : ∀ l ∈ s.cart, l.productId ≠ p.id) :
    (checkoutPayload { s with products := newCatalog }).items
        = s.cart.map (fun l => { productId := l.productId, qty := l.qty, unitPrice := l.price })
    ∧ (checkoutPayload { s with cart := addToCart p s.cart, products := newCatalog }).items
        = s.cart.map (fun l => { productId := l.productId, qty := l.qty, unitPrice := l.price })
            ++ [{ productId := p.id, qty := 1, unitPrice := p.sellingPrice }]
    ∧ (∀ resp, s.branchId ≠ "" →
        (checkout { s with cart := addToCart p s.cart, products := newCatalog } resp).1
          = [{ path := "/sales/checkout", method := "POST",
               body := checkoutPayload
                 { s with cart := addToCart p s.cart, products := newCatalog } }]) := by
  refine ⟨rfl, ?_, ?_⟩
  · simp [checkoutPayload, addToCart_of_not_mem p s.cart h, freshLine]
  · intro resp hb
    have hlen : ¬(addToCart p s.cart).length = 0 := by
      simpa [List.length_eq_zero] using addToCart_ne_nil p s.cart
    cases hresp :
        resp (checkoutPayload { s with cart := addToCart p s.cart, products := newCatalog }) <;>
      simp [checkout, hb, hlen, hresp]

/-- C1 witness: a product added at price 100 is submitted with unit
price 100 even though the catalog now prices it at 120. -/
theorem checkout_submits_snapshot_prices_witness :
    (checkoutPayload { stateEmptyCart with
        cart := addToCart prodW stateEmptyCart.cart, products := [prodW120] }).items
      = [{ productId := "P1", qty := 1, unitPrice := 100 }] := by
  have h := checkout_submits_snapshot_prices stateEmptyCart [prodW120] prodW
    (by intro l hl; simp [stateEmptyCart, state0] at hl)
  simpa [stateEmptyCart, state0, prodW] using h.2.1

/-- C2: with a branch selected and a non-empty cart, a successful
checkout empties the cart, clears the note, and retains the returned
invoice for display; a failed checkout leaves the cart and the note
exactly as they were. -/
theorem checkout_success_clears_failure_preserves (s : SalesState)
    (resp : CheckoutPayload → Except String Invoice)
    (hb : s.branchId ≠ "") (hc : s.cart ≠ []) :
    (∀ inv, resp (checkoutPayload s) = .ok inv →
        (checkout s resp).2.cart = [] ∧ (checkout s resp).2.note = ""
          ∧ (checkout s resp).2.lastInvoice = some inv)
    ∧ (∀ msg, resp (checkoutPayload s) = .error msg →
        (checkout s resp).2.cart = s.cart ∧ (checkout s resp).2.note = s.note) := by
  have hlen : ¬s.cart.length = 0 := by simpa [List.length_eq_zero] using hc
  constructor
  · intro inv hresp
    simp [checkout, hb, hlen, hresp]
  · intro msg hresp
    simp [checkout, hb, hlen, hresp]

/-- C2 witness: at a concrete state, success clears cart and note and
keeps the invoice; failure leaves cart and note untouched. -/
theorem checkout_success_clears_failure_preserves_witness :
    (checkout state0 respOk).2.cart = [] ∧ (checkout state0 respOk).2.note = ""
      ∧ (checkout state0 respOk).2.lastInvoice = some invINV1
      ∧ (checkout state0 respFail).2.cart = state0.cart
      ∧ (checkout state0 respFail).2.note = state0.note := by
  have hok := (checkout_success_clears_failure_preserves state0 respOk
    (by decide) (by decide)).1 invINV1 rfl
  have hfail := (checkout_success_clears_failure_preserves state0 respFail
    (by decide) (by decide)).2 "Insufficient stock" rfl
  exact ⟨hok.1, hok.2.1, hok.2.2, hfail.1, hfail.2⟩

/-- C5: checkout with no branch selected or an empty cart issues no
request, sets a validation error message, and leaves cart, note and
invoice state unchanged. -/
theorem checkout_validation_no_request (s : SalesState)
    (resp : CheckoutPayload → Except String Invoice)
    (h : s.branchId = "" ∨ s.cart = []) :
    (checkout s resp).1 = []
    ∧ ((checkout s resp).2.error = some "Please select a branch"
        ∨ (checkout s resp).2.error = some "Cart is empty")
    ∧ (checkout s resp).2.cart = s.cart
    ∧ (checkout s resp).2.note = s.note
    ∧ (checkout s resp).2.lastInvoice = s.lastInvoice := by
  by_cases hb : s.branchId = ""
  · simp [checkout, hb]
  · rcases h with h | h
    · exact absurd h hb
    · simp [checkout, hb, h]

/-- C5 witness: with no branch selected, no request is issued and the
cart is untouched. -/
theorem checkout_validation_no_request_witness :
    (checkout stateNoBranch respOk).1 = []
      ∧ (checkout stateNoBranch respOk).2.cart = stateNoBranch.cart
      ∧ (checkout stateNoBranch respOk).2.error = some "Please select a branch" := by
  have h := checkout_validation_no_request stateNoBranch respOk (Or.inl rfl)
  refine ⟨h.1, h.2.2.1, ?_⟩
  rcases h.2.1 with he | he
  · exact he
  · exact absurd he (by decide)

/-- C6: with a branch selected and a non-empty cart, checkout issues
exactly one request — a single POST to `/sales/checkout` whose body
carries one item per cart line — never one call per line. -/
theorem checkout_exactly_one_request (s : SalesState)
    (resp : CheckoutPayload → Except String Invoice)
    (hb : s.branchId ≠ "") (hc : s.cart ≠ []) :
    (checkout s resp).1
        = [{ path := "/sales/checkout", method := "POST", body := checkoutPayload s }]
    ∧ (checkoutPayload s).items.length = s.cart.length := by
  have hlen : ¬s.cart.length = 0 := by simpa [List.length_eq_zero] using hc
  constructor
  · cases hresp : resp (checkoutPayload s) <;> simp [checkout, hb, hlen, hresp]
  · simp [checkoutPayload]

/-- C6 witness at a concrete state. -/
theorem checkout_exactly_one_request_witness :
    (checkout state0 respOk).1
        = [{ path := "/sales/checkout", method := "POST", body := checkoutPayload state0 }]
      ∧ (checkoutPayload state0).items.length = state0.cart.length :=
  checkout_exactly_one_request state0 respOk (by decide) (by decide)

/-- C7 counterexample: a non-success response whose parsed error body
has the `message` field present but equal to `""` raises the generic
`"API error: 500"`, not the (present) `message` field. -/
theorem api_empty_message_fallback :
    api respEmptyMsg = .error "API error: 500" ∧ ("API error: 500" : String) ≠ "" :=
  ⟨rfl, by decide⟩

/-- C7 (amended): on a non-success response the client never returns
normally; the raised message is the body's `message` field when that
field is present and non-empty, and the generic `"API error: <status>"`
when the body is unparseable, has no `message`, or has an empty one. -/
theorem api_error_raising (res : HttpResponse) (h : res.ok = false) :
    (∀ b, api res ≠ .ok b)
    ∧ (∀ m, res.errorBody = some { message := some m } → m ≠ "" →
        api res = .error m)
    ∧ ((res.errorBody = none ∨ res.errorBody = some { message := none }
          ∨ res.errorBody = some { message := some "" }) →
        api res = .error ("API error: " ++ toString res.status)) := by
  refine ⟨?_, ?_, ?_⟩
  · intro b hcontra
    simp [api, h] at hcontra
  · intro m hm hne
    simp [api, h, hm, hne]
  · rintro (hcase | hcase | hcase) <;> simp [api, h, hcase]

/-- C7 witness: a backend message is surfaced verbatim; an unparseable
body yields the generic message. -/
theorem api_error_raising_witness :
    api respBoom = .error "boom" ∧ api respNoBody = .error "API error: 404" := by
  have h1 := api_error_raising respBoom rfl
  have h2 := api_error_raising respNoBody rfl
  exact ⟨h1.2.1 "boom" rfl (by decide), h2.2.2 (Or.inl rfl)⟩

/-- C10: the product picker list contains only active products, has at
most 50 entries, and — when the trimmed lowercased query is non-empty —
only products whose lowered name, SKU, or barcode contains it. -/
theorem filteredProducts_active_limited_matching (products : List Product) (search : String) :
    (∀ p ∈ filteredProducts products search, p.isActive = true)
    ∧ (filteredProducts products search).length ≤ 50
    ∧ (jsToLower (jsTrim search) ≠ "" →
        ∀ p ∈ filteredProducts products search,
          strIncludes (jsToLower p.name) (jsToLower (jsTrim search)) = true
          ∨ strIncludes (jsToLower p.sku) (jsToLower (jsTrim search)) = true
          ∨ ∃ b, p.barcode = some b
              ∧ strIncludes (jsToLower b) (jsToLower (jsTrim search)) = true) := by
  by_cases hq : jsToLower (jsTrim search) = ""
  · rw [filteredProducts_empty_query products search hq]
    refine ⟨?_, List.length_take_le 50 _, fun hq' => absurd hq hq'⟩
    intro p hp
    exact (List.mem_filter.mp (List.take_subset _ _ hp)).2
  · rw [filteredProducts_query products search hq]
    refine ⟨?_, List.length_take_le 50 _, fun _ => ?_⟩
    · intro p hp
      exact (List.mem_filter.mp (List.mem_of_mem_filter (List.take_subset _ _ hp))).2
    · intro p hp
      have hpred := List.of_mem_filter (List.take_subset _ _ hp)
      simp only [Bool.or_eq_true] at hpred
      rcases hpred with (hname | hsku) | hbar
      · exact Or.inl hname
      · exact Or.inr (Or.inl hsku)
      · refine Or.inr (Or.inr ?_)
        rcases hpb : p.barcode with _ | b
        · simp [hpb] at hbar
        · simp only [hpb] at hbar
          by_cases hb0 : b = ""
          · simp [hb0] at hbar
          · simp only [hb0, if_neg] at hbar
            exact ⟨b, rfl, hbar⟩

/-- C10 witness: a concrete active product matched by a padded,
mixed-case query. -/
theorem filteredProducts_active_limited_matching_witness :
    prodW.isActive = true
      ∧ (strIncludes (jsToLower prodW.name) (jsToLower (jsTrim "  DGE ")) = true
          ∨ strIncludes (jsToLower prodW.sku) (jsToLower (jsTrim "  DGE ")) = true
          ∨ ∃ b, prodW.barcode = some b
              ∧ strIncludes (jsToLower b) (jsToLower (jsTrim "  DGE ")) = true) := by
  have h := filteredProducts_active_limited_matching [prodW] "  DGE "
  have hmem : prodW ∈ filteredProducts [prodW] "  DGE " := by decide
  exact ⟨h.1 prodW hmem, h.2.2 (by decide) prodW hmem⟩

end Inventra
